import Mathlib

/-!
Verification development for the front-end repository: the environment
visualizer `Text` component (src/features/envVisualizer/components/Text.tsx)
and the workspace saga (whose behaviour is documented by
src/commons/sagas/__tests__/WorkspaceSaga.ts and by the specification).

Pixel widths returned by the external canvas measurement function
`getTextWidth` are only ever compared (never added or multiplied) in the
code under study, so they are embedded as rational numbers: any totally
ordered family of measured widths is represented faithfully.
-/

namespace EnvVisualizer

/-- A JavaScript value handed to the `Text` constructor, abstracted to the
two string representations the constructor can take of it: `String(data)`
and `JSON.stringify(data)` (the latter is `none` when stringify yields
`undefined`). -/
structure Data where
  toStr : String
  jsonStringify : Option String
deriving DecidableEq, Repr

/-- `TextOptions` from Text.tsx. -/
structure TextOptions where
  maxWidth : ℚ
  fontSize : ℚ
  fontFamily : String
  fontStyle : String
  fontVariant : String
  isStringIdentifiable : Bool
deriving DecidableEq, Repr

/-- `Partial<TextOptions>`: every field optional. -/
structure PartialTextOptions where
  maxWidth : Option ℚ := none
  fontSize : Option ℚ := none
  fontFamily : Option String := none
  fontStyle : Option String := none
  fontVariant : Option String := none
  isStringIdentifiable : Option Bool := none
deriving DecidableEq, Repr

/-- `defaultOptions` from Text.tsx; `Number.MAX_VALUE` is the largest
finite double, `(2 - 2^-52) * 2^1023`. -/
def defaultOptions : TextOptions :=
  { maxWidth := (2 ^ 1024 - 2 ^ 971 : ℚ)
    fontSize := 12
    fontFamily := "Arial"
    fontStyle := "normal"
    fontVariant := "normal"
    isStringIdentifiable := false }

/-- The spread `{ ...this.options, ...options }` in the constructor: each
field of the partial options, when present, overrides the default. -/
def mergeOptions (d : TextOptions) (p : PartialTextOptions) : TextOptions :=
  { maxWidth := p.maxWidth.getD d.maxWidth
    fontSize := p.fontSize.getD d.fontSize
    fontFamily := p.fontFamily.getD d.fontFamily
    fontStyle := p.fontStyle.getD d.fontStyle
    fontVariant := p.fontVariant.getD d.fontVariant
    isStringIdentifiable := p.isStringIdentifiable.getD d.isStringIdentifiable }

/-- Frames are external to the two source files; only the identity of the
optional `frame` reference matters to the claims, so it is abstracted. -/
def FrameRef : Type := Nat
deriving instance DecidableEq, Repr for FrameRef

/-- The truncation `while` loop of the `Text` constructor
(`while (widthOf(this.partialStr.substr(0, i) + Config.Ellipsis) < maxWidth)`),
embedded with explicit fuel. `s.take i` is `s.substr(0, i)` (the whole
string once `i` reaches the length, after which the tested text no longer
changes); the constructor supplies fuel `s.length + 1`, past which the
JavaScript loop could only repeat a test it has already passed on the full
string. `w` is the measured width of a string, `acc` the current
`truncatedText`, initially the ellipsis alone. -/
def truncGo (w : String → ℚ) (maxWidth : ℚ) (s ell : String) :
    Nat → Nat → String → String
  | 0, _, acc => acc
  | fuel + 1, i, acc =>
    if w (s.take i ++ ell) < maxWidth then
      truncGo w maxWidth s ell fuel (i + 1) (s.take i ++ ell)
    else acc

/-- The value of `truncatedText` after the `while` loop of the constructor:
`let truncatedText = Config.Ellipsis; let i = 0; while (...) {...}`. -/
def truncateText (w : String → ℚ) (maxWidth : ℚ) (s ell : String) : String :=
  truncGo w maxWidth s ell (s.length + 1) 0 ell

/-- The state of a `Text` instance after construction: the private fields,
the readonly strings, the stored options and the optional frame. -/
structure Text where
  data : Data
  partialStr : String
  fullStr : String
  widthVal : ℚ
  heightVal : ℚ
  hoveredWidthVal : ℚ
  xVal : ℚ
  yVal : ℚ
  options : TextOptions
  frame : Option FrameRef
deriving DecidableEq, Repr

/-- The `Text` constructor.  `w` is the external measurement
`s => getTextWidth(s, font)` for the font string built from the merged
options (the font only reaches the constructor through this measurement);
`ell` is `Config.Ellipsis` and `textMinWidth` is `Config.TextMinWidth`,
constants of the external configuration module. -/
def mkText (w : String → ℚ) (ell : String) (textMinWidth : ℚ)
    (data : Data) (x y : ℚ) (popts : PartialTextOptions)
    (frame : Option FrameRef) : Text :=
  let opts := mergeOptions defaultOptions popts
  let fullStr : String :=
    if opts.isStringIdentifiable then data.jsonStringify.getD data.toStr
    else data.toStr
  let hoveredWidth := w fullStr
  if opts.maxWidth < hoveredWidth then
    let truncated := truncateText w opts.maxWidth fullStr ell
    { data := data
      partialStr := truncated
      fullStr := fullStr
      widthVal := w truncated
      heightVal := opts.fontSize
      hoveredWidthVal := hoveredWidth
      xVal := x
      yVal := y
      options := opts
      frame := frame }
  else
    { data := data
      partialStr := fullStr
      fullStr := fullStr
      widthVal := max textMinWidth (w fullStr)
      heightVal := opts.fontSize
      hoveredWidthVal := hoveredWidth
      xVal := x
      yVal := y
      options := opts
      frame := frame }

/-- Accessor `x()`. -/
def Text.x (t : Text) : ℚ := t.xVal

/-- Accessor `y()`. -/
def Text.y (t : Text) : ℚ := t.yVal

/-- Accessor `height()`. -/
def Text.height (t : Text) : ℚ := t.heightVal

/-- Accessor `width()`. -/
def Text.width (t : Text) : ℚ := t.widthVal

/-- Accessor `hoveredWidth()`. -/
def Text.hoveredWidth (t : Text) : ℚ := t.hoveredWidthVal

/-- `updatePosition = (x, y) => { this._x = x; this._y = y; }`. -/
def Text.updatePosition (t : Text) (x y : ℚ) : Text :=
  { t with xVal := x, yVal := y }

end EnvVisualizer

namespace WorkspaceSaga

/-- A workspace location (playground, assessment, grading, ...), abstracted
to its name. -/
def WorkspaceLocation : Type := String
deriving instance DecidableEq, Repr for WorkspaceLocation

/-- A JavaScript value produced by an evaluation, as far as the dispatched
actions distinguish them. -/
inductive Value where
  | str (s : String)
  | num (n : Int)
  | other
deriving DecidableEq, Repr

/-- An error recorded in a js-slang execution context; `etype` is the
`type` field of the error (for example `Runtime`). -/
structure SourceError where
  etype : String
  explanation : String
deriving DecidableEq, Repr

/-- The classification the external infinite-loop detector gives an error. -/
inductive InfiniteLoopErrorType where
  | NoBaseCase
  | Cycle
  | FromSmt
deriving DecidableEq, Repr

/-- Data the external detector extracts from an infinite-loop error: the
error type, its explanation, and the code being analysed. -/
structure InfiniteLoopData where
  errorType : InfiniteLoopErrorType
  explanation : String
  codes : List String
deriving DecidableEq, Repr

/-- The execution context, as far as the saga reads and writes it: the
recorded errors and the result of the external infinite-loop detection on
them (`none` when no infinite loop was detected). -/
structure Context where
  errors : List SourceError
  infiniteLoopData : Option InfiniteLoopData
deriving DecidableEq, Repr

/-- The result shape of the evaluation entry points of the external interpreter:
`status` is `finished` (with a value), `suspended`, or `error` (the errors
are read off the context). -/
inductive EvalResult where
  | finished (value : Value)
  | suspended
  | error
deriving DecidableEq, Repr

/-- The session slice of the application state the saga consults. -/
structure SessionState where
  sessionId : Nat
  agreedToResearch : Bool
  experimentCoinflip : Bool
  hadPreviousInfiniteLoop : Bool
deriving DecidableEq, Repr

/-- The action type that started an `evalCode` invocation. -/
inductive ActionType where
  | EVAL_EDITOR
  | EVAL_REPL
  | EVAL_SILENT
  | DEBUG_RESUME
deriving DecidableEq, Repr

/-- The type of a testcase. (`TestcaseTypes.public` testcases show their
output; `TestcaseTypes.opaque` — constructor `opaqueKind` here, since the
word itself is a Lean keyword — hide it.) -/
inductive TestcaseType where
  | publicKind
  | opaqueKind
deriving DecidableEq, Repr

/-- An observable step the saga takes: a `put` of a redux action or a
`call` of an external function. -/
inductive Effect where
  | putBeginInterruptExecution (loc : WorkspaceLocation)
  | putBeginClearContext (loc : WorkspaceLocation)
  | putClearReplOutput (loc : WorkspaceLocation)
  | putClearReplOutputLast (loc : WorkspaceLocation)
  | putEvalInterpreterSuccess (value : Value) (loc : WorkspaceLocation)
  | putEvalInterpreterError (errors : List SourceError) (loc : WorkspaceLocation)
  | putEndDebuggerPause (loc : WorkspaceLocation)
  | putDebuggerReset (loc : WorkspaceLocation)
  | putEndInterruptExecution (loc : WorkspaceLocation)
  | putEvalTestcaseSuccess (value : Value) (loc : WorkspaceLocation) (index : Nat)
  | putEvalTestcaseFailure (errors : List SourceError) (loc : WorkspaceLocation) (index : Nat)
  | putUpdateInfiniteLoopEncountered
  | callRunInContext (code : String) (elevated : Bool)
  | callResume (lastDebuggerResult : EvalResult)
  | callShowWarningMessage (msg : String) (durationMs : Nat)
  | callShowSuccessMessage (msg : String) (durationMs : Nat)
  | callReportInfiniteLoopError (sessionId : Nat)
      (errorType : InfiniteLoopErrorType) (explanation : String)
      (codes : List String)
  | callEvalEditor (loc : WorkspaceLocation)
  | callRunTestCase (loc : WorkspaceLocation) (index : Nat)
deriving DecidableEq, Repr

/-- Modelled from the spec: infinite-loop conditions "are detected by the
external interpreter and optionally reported to a telemetry collector" —
the saga implementation (WorkspaceSaga.ts) is not among the given sources.
When the detector classifies the error as an infinite loop, the saga
records the encounter, and sends the report (session id, error type,
explanation, code) only when the user agreed to research. -/
def infiniteLoopTelemetry (session : SessionState) (ctx : Context) :
    List Effect :=
  match ctx.infiniteLoopData with
  | none => []
  | some d =>
    Effect.putUpdateInfiniteLoopEncountered ::
      (if session.agreedToResearch then
        [Effect.callReportInfiniteLoopError session.sessionId d.errorType
          d.explanation d.codes]
      else [])

/-- Modelled from the spec: the repository "only reacts to three possible
outcomes — finished, suspended (paused at a breakpoint), or errored" — the
saga implementation (WorkspaceSaga.ts) is not among the given sources.
The dispatches for each interpreter outcome: on `finished`,
`evalInterpreterSuccess` with the value of the result; on `suspended`,
`endDebuggerPause` then `evalInterpreterSuccess` with `Breakpoint hit!`; on
`error`, `evalInterpreterError` with the errors recorded in the execution
context, followed by the optional infinite-loop telemetry. -/
def handleResult (session : SessionState) (loc : WorkspaceLocation)
    (ctx : Context) : EvalResult → List Effect
  | EvalResult.finished v => [Effect.putEvalInterpreterSuccess v loc]
  | EvalResult.suspended =>
    [Effect.putEndDebuggerPause loc,
     Effect.putEvalInterpreterSuccess (Value.str "Breakpoint hit!") loc]
  | EvalResult.error =>
    Effect.putEvalInterpreterError ctx.errors loc ::
      infiniteLoopTelemetry session ctx

/-- The error js-slang records in the context when an evaluation is
interrupted: an `InterruptedError`, whose `type` is `Runtime`. -/
def interruptedError : SourceError :=
  { etype := "Runtime", explanation := "Execution aborted" }

/-- How the race around the in-flight evaluation ended: the interpreter
returned a result (with the post-run context), or a user-triggered
`BEGIN_INTERRUPT_EXECUTION` or `BEGIN_DEBUG_PAUSE` for the same workspace
won first. -/
inductive RaceOutcome where
  | result (r : EvalResult) (ctxAfter : Context)
  | interrupted
  | paused
deriving DecidableEq, Repr

/-- The arguments of an `evalCode` invocation (the stored
`lastDebuggerResult` is what `resume` is called with on `DEBUG_RESUME`). -/
structure EvalCodeInput where
  code : String
  execTime : Nat
  loc : WorkspaceLocation
  actionType : ActionType
  lastDebuggerResult : EvalResult
deriving DecidableEq, Repr

/-- Modelled from the spec: which external interpreter entry point an
`evalCode` invocation drives — `resume` on the last stored debugger result
for `DEBUG_RESUME`, `runInContext` on the code otherwise. -/
def entryEffect (inp : EvalCodeInput) : Effect :=
  match inp.actionType with
  | ActionType.DEBUG_RESUME => Effect.callResume inp.lastDebuggerResult
  | _ => Effect.callRunInContext inp.code false

/-- Modelled from the spec: the saga implementation (WorkspaceSaga.ts,
`evalCode`) is not among the given sources; the spec has the saga drive
the external entry points (`run`, `resume`), react to the three interpreter
outcomes, and race them "against user-triggered interrupt and pause events,
cancelling the in-flight evaluation and resetting UI state on
interruption".  On `DEBUG_RESUME` the interpreter is entered through
`resume` on the last stored debugger result, otherwise through
`runInContext` on the code.  The race is resolved by `race`; on interruption
the saga dispatches `debuggerReset` and `endInterruptExecution`, shows the
warning `Execution aborted`, and a Runtime `InterruptedError` is recorded
in the context; on pause it dispatches `endDebuggerPause` and shows
`Execution paused`.  Returns the effect trace and the final context. -/
def evalCode (session : SessionState) (ctx : Context) (inp : EvalCodeInput)
    (race : RaceOutcome) : List Effect × Context :=
  let entry := entryEffect inp
  match race with
  | RaceOutcome.result r ctxAfter =>
    (entry :: handleResult session inp.loc ctxAfter r, ctxAfter)
  | RaceOutcome.interrupted =>
    (entry ::
      [Effect.putDebuggerReset inp.loc,
       Effect.putEndInterruptExecution inp.loc,
       Effect.callShowWarningMessage "Execution aborted" 750],
     { ctx with errors := ctx.errors ++ [interruptedError] })
  | RaceOutcome.paused =>
    (entry ::
      [Effect.putEndDebuggerPause inp.loc,
       Effect.callShowWarningMessage "Execution paused" 750],
     ctx)

/-- Modelled from the spec: the saga implementation (WorkspaceSaga.ts,
`evalTestCode`) is not among the given sources.  A testcase is run through
`runInContext`; on `finished` the saga dispatches `evalInterpreterSuccess`
and `evalTestcaseSuccess`, on `error` it dispatches `evalInterpreterError`
and `evalTestcaseFailure` with the errors of the context, and in either case an
additional `clearReplOutputLast` follows exactly when the testcase type is
opaque.  (A `suspended` result is not expected of testcase programs and
dispatches nothing.)  On interruption the saga dispatches
`endInterruptExecution`, shows a warning naming the testcase, and a Runtime
`InterruptedError` is recorded in the context. -/
def evalTestCode (ctx : Context) (code : String) (loc : WorkspaceLocation)
    (index : Nat) (ty : TestcaseType) (race : RaceOutcome) :
    List Effect × Context :=
  let entry := Effect.callRunInContext code true
  let opaqueExtra : List Effect :=
    match ty with
    | TestcaseType.opaqueKind => [Effect.putClearReplOutputLast loc]
    | TestcaseType.publicKind => []
  match race with
  | RaceOutcome.result (EvalResult.finished v) ctxAfter =>
    (entry ::
      ([Effect.putEvalInterpreterSuccess v loc,
        Effect.putEvalTestcaseSuccess v loc index] ++ opaqueExtra),
     ctxAfter)
  | RaceOutcome.result EvalResult.error ctxAfter =>
    (entry ::
      ([Effect.putEvalInterpreterError ctxAfter.errors loc,
        Effect.putEvalTestcaseFailure ctxAfter.errors loc index] ++
        opaqueExtra),
     ctxAfter)
  | RaceOutcome.result EvalResult.suspended ctxAfter => ([entry], ctxAfter)
  | RaceOutcome.interrupted =>
    (entry ::
      [Effect.putEndInterruptExecution loc,
       Effect.callShowWarningMessage
         ("Execution of testcase " ++ toString index ++ " aborted") 750],
     { ctx with errors := ctx.errors ++ [interruptedError] })
  | RaceOutcome.paused => ([entry], ctx)

/-- The workspace slice of the application state the `EVAL_EDITOR` handler
reads: the hidden prepend and postpend, and the editor value of the student. -/
structure WorkspaceState where
  editorPrepend : String
  editorValue : String
  editorPostpend : String
deriving DecidableEq, Repr

/-- Modelled from the spec: the saga implementation (WorkspaceSaga.ts,
the `EVAL_EDITOR` handler) is not among the given sources; the spec has the
saga call "an external evaluation API ... in the documented sequence".
The handler dispatches `beginInterruptExecution`, `beginClearContext` and
`clearReplOutput`, then runs the editor prepend in an elevated context
silently (no dispatch of its result), runs the helper program that blocks
the elevated methods (`blocker`, generated outside this saga), runs the
editor value of the student in the normal context and dispatches the result by
the three-outcome rules, and does not run the postpend. -/
def evalEditor (session : SessionState) (ws : WorkspaceState)
    (loc : WorkspaceLocation) (blocker : String) (ctxAfter : Context)
    (valueRes : EvalResult) : List Effect :=
  [Effect.putBeginInterruptExecution loc,
   Effect.putBeginClearContext loc,
   Effect.putClearReplOutput loc,
   Effect.callRunInContext ws.editorPrepend true,
   Effect.callRunInContext blocker true,
   Effect.callRunInContext ws.editorValue false] ++
    handleResult session loc ctxAfter valueRes

/-- Modelled from the spec: the saga implementation (WorkspaceSaga.ts,
the testcase loop of the `EVAL_EDITOR_AND_TESTCASES` handler) is not among
the given sources.  `runTestCase` is called on indices `i, i+1, ...` while
`n` testcases remain, stopping as soon as a call returns `false`;
`res` gives the return value of each call. -/
def runTestCases (loc : WorkspaceLocation) (res : Nat → Bool) :
    Nat → Nat → List Effect
  | 0, _ => []
  | n + 1, i =>
    Effect.callRunTestCase loc i ::
      (if res i then runTestCases loc res n (i + 1) else [])

/-- Modelled from the spec: the saga implementation (WorkspaceSaga.ts,
the `EVAL_EDITOR_AND_TESTCASES` handler) is not among the given sources.
The handler evaluates the editor first; when there is at least one
testcase it then shows `Running all testcases!` and runs the testcases in
index order, stopping at the first failure; with no testcases nothing
further happens. -/
def evalEditorAndTestcases (loc : WorkspaceLocation) (numTestcases : Nat)
    (res : Nat → Bool) : List Effect :=
  Effect.callEvalEditor loc ::
    (if numTestcases = 0 then []
     else
       Effect.callShowSuccessMessage "Running all testcases!" 2000 ::
         runTestCases loc res numTestcases 0)

end WorkspaceSaga

namespace EnvVisualizer

/-- Width function used by the concrete evaluations below: every character
one pixel wide (an admissible measurement, since the code only compares
widths). -/
def wlen (s : String) : ℚ := (s.length : ℚ)

lemma truncGo_lt (w : String → ℚ) (mw : ℚ) (s ell : String) :
    ∀ (fuel i : Nat) (acc : String), w acc < mw →
      w (truncGo w mw s ell fuel i acc) < mw := by
  intro fuel
  induction fuel with
  | zero => intro i acc h; simpa [truncGo] using h
  | succ n ih =>
    intro i acc h
    rw [truncGo]
    split
    · next hguard => exact ih (i + 1) _ hguard
    · exact h

lemma truncGo_take_append (w : String → ℚ) (mw : ℚ) (s ell : String) :
    ∀ (fuel i : Nat) (acc : String), (∃ k, acc = s.take k ++ ell) →
      ∃ k, truncGo w mw s ell fuel i acc = s.take k ++ ell := by
  intro fuel
  induction fuel with
  | zero => intro i acc h; simpa [truncGo] using h
  | succ n ih =>
    intro i acc h
    rw [truncGo]
    split
    · exact ih (i + 1) _ ⟨i, rfl⟩
    · exact h

lemma truncateText_take_append (w : String → ℚ) (mw : ℚ) (s ell : String) :
    ∃ k, truncateText w mw s ell = s.take k ++ ell :=
  truncGo_take_append w mw s ell (s.length + 1) 0 ell
    ⟨0, by simp [String.take_eq]⟩

lemma truncateText_lt (w : String → ℚ) (mw : ℚ) (s ell : String)
    (h : w ell < mw) : w (truncateText w mw s ell) < mw :=
  truncGo_lt w mw s ell (s.length + 1) 0 ell h

end EnvVisualizer

/-- Claim C8: `updatePosition(x, y)` changes only the position reported by
`x()` and `y()`; `width()`, `height()`, `hoveredWidth()`, `partialStr`,
`fullStr`, `options`, `frame` (and the stored data) are unchanged. -/
theorem EnvVisualizer.updatePosition_only_moves (t : EnvVisualizer.Text) (x y : ℚ) :
    (t.updatePosition x y).x = x ∧ (t.updatePosition x y).y = y ∧
      (t.updatePosition x y).width = t.width ∧
      (t.updatePosition x y).height = t.height ∧
      (t.updatePosition x y).hoveredWidth = t.hoveredWidth ∧
      (t.updatePosition x y).partialStr = t.partialStr ∧
      (t.updatePosition x y).fullStr = t.fullStr ∧
      (t.updatePosition x y).options = t.options ∧
      (t.updatePosition x y).frame = t.frame ∧
      (t.updatePosition x y).data = t.data :=
  ⟨rfl, rfl, rfl, rfl, rfl, rfl, rfl, rfl, rfl, rfl⟩

/-- Claim C3 as amended: for every data value, position, options and
measurement, provided the ellipsis alone measures strictly below the merged
`maxWidth`: when the full string representation measures above `maxWidth`,
`partialStr` is a prefix of the full string followed by the ellipsis and
measures strictly below `maxWidth`; otherwise `partialStr` is the full
string representation. -/
theorem EnvVisualizer.mkText_truncation_amended (w : String → ℚ) (ell : String)
    (tmw : ℚ) (d : EnvVisualizer.Data) (x y : ℚ)
    (popts : EnvVisualizer.PartialTextOptions) (fr : Option EnvVisualizer.FrameRef)
    (hell : w ell < (EnvVisualizer.mergeOptions EnvVisualizer.defaultOptions popts).maxWidth) :
    ((EnvVisualizer.mergeOptions EnvVisualizer.defaultOptions popts).maxWidth <
        w (EnvVisualizer.mkText w ell tmw d x y popts fr).fullStr →
      (∃ k, (EnvVisualizer.mkText w ell tmw d x y popts fr).partialStr =
          ((EnvVisualizer.mkText w ell tmw d x y popts fr).fullStr.take k) ++ ell) ∧
        w (EnvVisualizer.mkText w ell tmw d x y popts fr).partialStr <
          (EnvVisualizer.mergeOptions EnvVisualizer.defaultOptions popts).maxWidth) ∧
    (¬ (EnvVisualizer.mergeOptions EnvVisualizer.defaultOptions popts).maxWidth <
        w (EnvVisualizer.mkText w ell tmw d x y popts fr).fullStr →
      (EnvVisualizer.mkText w ell tmw d x y popts fr).partialStr =
        (EnvVisualizer.mkText w ell tmw d x y popts fr).fullStr) := by
  simp only [EnvVisualizer.mkText]
  split <;> split
  all_goals
    first
    | (rename_i hle
       exact ⟨fun hgt => absurd hgt hle, fun _ => rfl⟩)
    | (rename_i hgt
       exact ⟨fun _ =>
          ⟨EnvVisualizer.truncateText_take_append w _ _ ell,
           EnvVisualizer.truncateText_lt w _ _ ell hell⟩,
         fun hn => absurd hgt hn⟩)

/-- Claim C3 witness: with one-pixel-per-character measurement, ellipsis
`…`, `maxWidth` 3 and data `abcd`, the hypothesis holds and the truncated
string measures strictly below `maxWidth`. -/
theorem EnvVisualizer.mkText_truncation_amended_witness :
    EnvVisualizer.wlen "…" <
        (EnvVisualizer.mergeOptions EnvVisualizer.defaultOptions
          { maxWidth := some 3 }).maxWidth ∧
      EnvVisualizer.wlen
          (EnvVisualizer.mkText EnvVisualizer.wlen "…" 0 ⟨"abcd", none⟩ 0 0
            { maxWidth := some 3 } none).partialStr <
        (EnvVisualizer.mergeOptions EnvVisualizer.defaultOptions
          { maxWidth := some 3 }).maxWidth :=
  ⟨by decide,
    ((EnvVisualizer.mkText_truncation_amended EnvVisualizer.wlen "…" 0
          ⟨"abcd", none⟩ 0 0 { maxWidth := some 3 } none (by decide)).1
      (by decide)).2⟩

/-- Claim C3 counterexample: with one-pixel-per-character measurement,
ellipsis `…` and `maxWidth` 1, the full string `ab` measures above
`maxWidth`, yet the truncated `partialStr` (the bare ellipsis) does not
measure strictly below `maxWidth`, contradicting the claim as stated. -/
theorem EnvVisualizer.mkText_truncation_cex :
    (EnvVisualizer.mergeOptions EnvVisualizer.defaultOptions
          { maxWidth := some 1 }).maxWidth = 1 ∧
      (1 : ℚ) <
        EnvVisualizer.wlen
          (EnvVisualizer.mkText EnvVisualizer.wlen "…" 0 ⟨"ab", none⟩ 0 0
            { maxWidth := some 1 } none).fullStr ∧
      ¬ EnvVisualizer.wlen
            (EnvVisualizer.mkText EnvVisualizer.wlen "…" 0 ⟨"ab", none⟩ 0 0
              { maxWidth := some 1 } none).partialStr <
          1 := by
  decide

namespace WorkspaceSaga

lemma not_runInContext_mem_telemetry (s : SessionState) (ctx : Context)
    (c : String) (b : Bool) :
    Effect.callRunInContext c b ∉ infiniteLoopTelemetry s ctx := by
  intro h
  unfold infiniteLoopTelemetry at h
  rcases hd : ctx.infiniteLoopData with _ | d <;> rw [hd] at h
  · simp at h
  · rcases List.mem_cons.mp h with h' | h'
    · simp at h'
    · revert h'
      cases s.agreedToResearch <;> simp

end WorkspaceSaga

/-- Claim C1: every `evalCode` evaluation whose race resolves to an
interpreter result reacts to exactly the three interpreter outcomes: on
`finished` it dispatches `evalInterpreterSuccess` with the value of the
result; on `suspended` it dispatches `endDebuggerPause` followed by
`evalInterpreterSuccess` with `Breakpoint hit!`; on `error` it dispatches
`evalInterpreterError` carrying the errors recorded in the execution
context. -/
theorem WorkspaceSaga.evalCode_three_outcome_dispatches
    (session : WorkspaceSaga.SessionState)
    (ctx ctxAfter : WorkspaceSaga.Context)
    (inp : WorkspaceSaga.EvalCodeInput) :
    (∀ r : WorkspaceSaga.EvalResult,
        (∃ v, r = WorkspaceSaga.EvalResult.finished v) ∨
          r = WorkspaceSaga.EvalResult.suspended ∨
            r = WorkspaceSaga.EvalResult.error) ∧
    (∀ v,
        (WorkspaceSaga.evalCode session ctx inp
            (WorkspaceSaga.RaceOutcome.result
              (WorkspaceSaga.EvalResult.finished v) ctxAfter)).1 =
          [WorkspaceSaga.entryEffect inp,
           WorkspaceSaga.Effect.putEvalInterpreterSuccess v inp.loc]) ∧
    ((WorkspaceSaga.evalCode session ctx inp
        (WorkspaceSaga.RaceOutcome.result
          WorkspaceSaga.EvalResult.suspended ctxAfter)).1 =
      [WorkspaceSaga.entryEffect inp,
       WorkspaceSaga.Effect.putEndDebuggerPause inp.loc,
       WorkspaceSaga.Effect.putEvalInterpreterSuccess
         (WorkspaceSaga.Value.str "Breakpoint hit!") inp.loc]) ∧
    (∃ tel,
        (WorkspaceSaga.evalCode session ctx inp
            (WorkspaceSaga.RaceOutcome.result
              WorkspaceSaga.EvalResult.error ctxAfter)).1 =
          WorkspaceSaga.entryEffect inp ::
            WorkspaceSaga.Effect.putEvalInterpreterError ctxAfter.errors
              inp.loc :: tel) := by
  refine ⟨fun r => ?_, fun v => rfl, rfl, ⟨_, rfl⟩⟩
  cases r with
  | finished v => exact Or.inl ⟨v, rfl⟩
  | suspended => exact Or.inr (Or.inl rfl)
  | error => exact Or.inr (Or.inr rfl)

/-- Claim C2: when a user-triggered interrupt wins the race against an
in-flight `evalCode` evaluation, the saga dispatches `debuggerReset` and
`endInterruptExecution` for the workspace, shows the warning
`Execution aborted`, and a Runtime-type error is recorded in the execution
context. -/
theorem WorkspaceSaga.evalCode_interrupt_resets_ui
    (session : WorkspaceSaga.SessionState) (ctx : WorkspaceSaga.Context)
    (inp : WorkspaceSaga.EvalCodeInput) :
    (WorkspaceSaga.evalCode session ctx inp
        WorkspaceSaga.RaceOutcome.interrupted).1 =
      [WorkspaceSaga.entryEffect inp,
       WorkspaceSaga.Effect.putDebuggerReset inp.loc,
       WorkspaceSaga.Effect.putEndInterruptExecution inp.loc,
       WorkspaceSaga.Effect.callShowWarningMessage "Execution aborted" 750] ∧
    ∃ e ∈ (WorkspaceSaga.evalCode session ctx inp
        WorkspaceSaga.RaceOutcome.interrupted).2.errors,
      e.etype = "Runtime" := by
  refine ⟨rfl, WorkspaceSaga.interruptedError, ?_, rfl⟩
  simp [WorkspaceSaga.evalCode]

/-- Claim C7: when a user-triggered pause wins the race against an
in-flight `evalCode` evaluation, the saga dispatches `endDebuggerPause`
for the workspace and shows the warning `Execution paused`. -/
theorem WorkspaceSaga.evalCode_paused
    (session : WorkspaceSaga.SessionState) (ctx : WorkspaceSaga.Context)
    (inp : WorkspaceSaga.EvalCodeInput) :
    (WorkspaceSaga.evalCode session ctx inp
        WorkspaceSaga.RaceOutcome.paused).1 =
      [WorkspaceSaga.entryEffect inp,
       WorkspaceSaga.Effect.putEndDebuggerPause inp.loc,
       WorkspaceSaga.Effect.callShowWarningMessage "Execution paused" 750] ∧
    (WorkspaceSaga.evalCode session ctx inp
        WorkspaceSaga.RaceOutcome.paused).2 = ctx :=
  ⟨rfl, rfl⟩

/-- Claim C4: an `evalCode` invocation for `DEBUG_RESUME` drives the
interpreter through `resume` on the last stored debugger result rather
than through `runInContext`, and handles the resume result by the same
three-status rules. -/
theorem WorkspaceSaga.evalCode_debug_resume
    (session : WorkspaceSaga.SessionState)
    (ctx ctxAfter : WorkspaceSaga.Context)
    (inp : WorkspaceSaga.EvalCodeInput)
    (h : inp.actionType = WorkspaceSaga.ActionType.DEBUG_RESUME) :
    (∀ race,
        (WorkspaceSaga.evalCode session ctx inp race).1.head? =
            some (WorkspaceSaga.Effect.callResume inp.lastDebuggerResult) ∧
          ∀ c b, WorkspaceSaga.Effect.callRunInContext c b ∉
            (WorkspaceSaga.evalCode session ctx inp race).1) ∧
    (∀ v,
        (WorkspaceSaga.evalCode session ctx inp
            (WorkspaceSaga.RaceOutcome.result
              (WorkspaceSaga.EvalResult.finished v) ctxAfter)).1 =
          [WorkspaceSaga.Effect.callResume inp.lastDebuggerResult,
           WorkspaceSaga.Effect.putEvalInterpreterSuccess v inp.loc]) ∧
    ((WorkspaceSaga.evalCode session ctx inp
        (WorkspaceSaga.RaceOutcome.result
          WorkspaceSaga.EvalResult.suspended ctxAfter)).1 =
      [WorkspaceSaga.Effect.callResume inp.lastDebuggerResult,
       WorkspaceSaga.Effect.putEndDebuggerPause inp.loc,
       WorkspaceSaga.Effect.putEvalInterpreterSuccess
         (WorkspaceSaga.Value.str "Breakpoint hit!") inp.loc]) ∧
    (∃ tel,
        (WorkspaceSaga.evalCode session ctx inp
            (WorkspaceSaga.RaceOutcome.result
              WorkspaceSaga.EvalResult.error ctxAfter)).1 =
          WorkspaceSaga.Effect.callResume inp.lastDebuggerResult ::
            WorkspaceSaga.Effect.putEvalInterpreterError ctxAfter.errors
              inp.loc :: tel) := by
  have he : WorkspaceSaga.entryEffect inp =
      WorkspaceSaga.Effect.callResume inp.lastDebuggerResult := by
    simp only [WorkspaceSaga.entryEffect, h]
  refine ⟨fun race => ⟨?_, fun c b hmem => ?_⟩,
    fun v => by simp [WorkspaceSaga.evalCode, WorkspaceSaga.handleResult, he],
    by simp [WorkspaceSaga.evalCode, WorkspaceSaga.handleResult, he],
    ⟨WorkspaceSaga.infiniteLoopTelemetry session ctxAfter,
      by simp [WorkspaceSaga.evalCode, WorkspaceSaga.handleResult, he]⟩⟩
  · cases race <;> simp [WorkspaceSaga.evalCode, he]
  · rcases race with ⟨r, cA⟩ | _ | _
    · cases r <;>
        simp [WorkspaceSaga.evalCode, WorkspaceSaga.handleResult, he] at hmem
      exact WorkspaceSaga.not_runInContext_mem_telemetry session cA c b hmem
    · simp [WorkspaceSaga.evalCode, he] at hmem
    · simp [WorkspaceSaga.evalCode, he] at hmem

/-- Claim C4 witness: a concrete `DEBUG_RESUME` invocation resumes from the
stored debugger result and dispatches the finished value. -/
theorem WorkspaceSaga.evalCode_debug_resume_witness :
    (WorkspaceSaga.EvalCodeInput.mk "sample code" 1000 "playground"
          WorkspaceSaga.ActionType.DEBUG_RESUME
          WorkspaceSaga.EvalResult.error).actionType =
        WorkspaceSaga.ActionType.DEBUG_RESUME ∧
      (WorkspaceSaga.evalCode ⟨10, false, true, false⟩ ⟨[], none⟩
          (WorkspaceSaga.EvalCodeInput.mk "sample code" 1000 "playground"
            WorkspaceSaga.ActionType.DEBUG_RESUME
            WorkspaceSaga.EvalResult.error)
          (WorkspaceSaga.RaceOutcome.result
            (WorkspaceSaga.EvalResult.finished
              (WorkspaceSaga.Value.str "abc")) ⟨[], none⟩)).1 =
        [WorkspaceSaga.Effect.callResume WorkspaceSaga.EvalResult.error,
         WorkspaceSaga.Effect.putEvalInterpreterSuccess
           (WorkspaceSaga.Value.str "abc") "playground"] :=
  ⟨rfl,
    (WorkspaceSaga.evalCode_debug_resume ⟨10, false, true, false⟩ ⟨[], none⟩
          ⟨[], none⟩
          (WorkspaceSaga.EvalCodeInput.mk "sample code" 1000 "playground"
            WorkspaceSaga.ActionType.DEBUG_RESUME
            WorkspaceSaga.EvalResult.error) rfl).2.1
      (WorkspaceSaga.Value.str "abc")⟩

/-- Claim C5: when the external interpreter detects an infinite-loop
condition (the detector yields data for the errored context), `evalCode`
calls `reportInfiniteLoopError` with the session id, error type,
explanation and code exactly when the user agreed to research; with
`agreedToResearch` false no telemetry report is sent. -/
theorem WorkspaceSaga.evalCode_infinite_loop_telemetry
    (session : WorkspaceSaga.SessionState)
    (ctx ctxAfter : WorkspaceSaga.Context)
    (inp : WorkspaceSaga.EvalCodeInput)
    (d : WorkspaceSaga.InfiniteLoopData)
    (hd : ctxAfter.infiniteLoopData = some d) :
    (session.agreedToResearch = true →
      WorkspaceSaga.Effect.callReportInfiniteLoopError session.sessionId
          d.errorType d.explanation d.codes ∈
        (WorkspaceSaga.evalCode session ctx inp
            (WorkspaceSaga.RaceOutcome.result
              WorkspaceSaga.EvalResult.error ctxAfter)).1) ∧
    (session.agreedToResearch = false →
      ∀ sid et ex cs,
        WorkspaceSaga.Effect.callReportInfiniteLoopError sid et ex cs ∉
          (WorkspaceSaga.evalCode session ctx inp
              (WorkspaceSaga.RaceOutcome.result
                WorkspaceSaga.EvalResult.error ctxAfter)).1) := by
  constructor
  · intro ha
    simp [WorkspaceSaga.evalCode, WorkspaceSaga.handleResult,
      WorkspaceSaga.infiniteLoopTelemetry, hd, ha]
  · intro ha sid et ex cs hmem
    simp [WorkspaceSaga.evalCode, WorkspaceSaga.handleResult,
      WorkspaceSaga.infiniteLoopTelemetry, hd, ha] at hmem
    cases hA : inp.actionType <;>
      simp [WorkspaceSaga.entryEffect, hA] at hmem

/-- Claim C5 witness: with research agreed, a detected infinite loop in the
errored context yields the telemetry call. -/
theorem WorkspaceSaga.evalCode_infinite_loop_telemetry_witness :
    (WorkspaceSaga.Context.mk []
          (some ⟨WorkspaceSaga.InfiniteLoopErrorType.NoBaseCase,
            "The function f has encountered an infinite loop. It has no base case.",
            ["f(1);"]⟩)).infiniteLoopData =
        some ⟨WorkspaceSaga.InfiniteLoopErrorType.NoBaseCase,
          "The function f has encountered an infinite loop. It has no base case.",
          ["f(1);"]⟩ ∧
      WorkspaceSaga.Effect.callReportInfiniteLoopError 10
          WorkspaceSaga.InfiniteLoopErrorType.NoBaseCase
          "The function f has encountered an infinite loop. It has no base case."
          ["f(1);"] ∈
        (WorkspaceSaga.evalCode ⟨10, true, true, false⟩ ⟨[], none⟩
            (WorkspaceSaga.EvalCodeInput.mk "f(1);" 1000 "assessment"
              WorkspaceSaga.ActionType.EVAL_EDITOR
              WorkspaceSaga.EvalResult.error)
            (WorkspaceSaga.RaceOutcome.result WorkspaceSaga.EvalResult.error
              (WorkspaceSaga.Context.mk []
                (some ⟨WorkspaceSaga.InfiniteLoopErrorType.NoBaseCase,
                  "The function f has encountered an infinite loop. It has no base case.",
                  ["f(1);"]⟩)))).1 :=
  ⟨rfl,
    (WorkspaceSaga.evalCode_infinite_loop_telemetry ⟨10, true, true, false⟩
          ⟨[], none⟩ _
          (WorkspaceSaga.EvalCodeInput.mk "f(1);" 1000 "assessment"
            WorkspaceSaga.ActionType.EVAL_EDITOR
            WorkspaceSaga.EvalResult.error)
          ⟨WorkspaceSaga.InfiniteLoopErrorType.NoBaseCase,
            "The function f has encountered an infinite loop. It has no base case.",
            ["f(1);"]⟩ rfl).1 rfl⟩

/-- Claim C9: for every testcase evaluated by `evalTestCode`, after the
success dispatches (`evalInterpreterSuccess`, `evalTestcaseSuccess` on
finished) or the failure dispatches (`evalInterpreterError`,
`evalTestcaseFailure` on error), an additional `clearReplOutputLast` is
dispatched if and only if the testcase type is opaque; for public
testcases it never is. -/
theorem WorkspaceSaga.evalTestCode_clear_repl_output_last
    (ctx ctxAfter : WorkspaceSaga.Context) (code : String)
    (loc : WorkspaceSaga.WorkspaceLocation) (index : Nat)
    (ty : WorkspaceSaga.TestcaseType) :
    (∀ v,
        (WorkspaceSaga.evalTestCode ctx code loc index ty
            (WorkspaceSaga.RaceOutcome.result
              (WorkspaceSaga.EvalResult.finished v) ctxAfter)).1 =
          WorkspaceSaga.Effect.callRunInContext code true ::
            ([WorkspaceSaga.Effect.putEvalInterpreterSuccess v loc,
              WorkspaceSaga.Effect.putEvalTestcaseSuccess v loc index] ++
              (if ty = WorkspaceSaga.TestcaseType.opaqueKind then
                [WorkspaceSaga.Effect.putClearReplOutputLast loc]
              else []))) ∧
    ((WorkspaceSaga.evalTestCode ctx code loc index ty
        (WorkspaceSaga.RaceOutcome.result
          WorkspaceSaga.EvalResult.error ctxAfter)).1 =
      WorkspaceSaga.Effect.callRunInContext code true ::
        ([WorkspaceSaga.Effect.putEvalInterpreterError ctxAfter.errors loc,
          WorkspaceSaga.Effect.putEvalTestcaseFailure ctxAfter.errors loc
            index] ++
          (if ty = WorkspaceSaga.TestcaseType.opaqueKind then
            [WorkspaceSaga.Effect.putClearReplOutputLast loc]
          else []))) ∧
    (∀ v,
        WorkspaceSaga.Effect.putClearReplOutputLast loc ∈
            (WorkspaceSaga.evalTestCode ctx code loc index ty
                (WorkspaceSaga.RaceOutcome.result
                  (WorkspaceSaga.EvalResult.finished v) ctxAfter)).1 ↔
          ty = WorkspaceSaga.TestcaseType.opaqueKind) ∧
    (WorkspaceSaga.Effect.putClearReplOutputLast loc ∈
        (WorkspaceSaga.evalTestCode ctx code loc index ty
            (WorkspaceSaga.RaceOutcome.result
              WorkspaceSaga.EvalResult.error ctxAfter)).1 ↔
      ty = WorkspaceSaga.TestcaseType.opaqueKind) := by
  cases ty <;> simp [WorkspaceSaga.evalTestCode]

/-- Claim C6: the `EVAL_EDITOR` handler dispatches
`beginInterruptExecution`, `beginClearContext` and `clearReplOutput`, runs
the editor prepend in an elevated context silently, runs the editor value
of the student in the normal context and dispatches
`evalInterpreterSuccess` with its result, and does not execute the
postpend afterwards; the only `evalInterpreterSuccess` dispatched carries
the result of the student program. -/
theorem WorkspaceSaga.evalEditor_sequence
    (session : WorkspaceSaga.SessionState)
    (ws : WorkspaceSaga.WorkspaceState)
    (loc : WorkspaceSaga.WorkspaceLocation) (blocker : String)
    (ctxAfter : WorkspaceSaga.Context) (v : WorkspaceSaga.Value)
    (hpre : ws.editorPostpend ≠ ws.editorPrepend)
    (hblk : ws.editorPostpend ≠ blocker)
    (hval : ws.editorPostpend ≠ ws.editorValue) :
    WorkspaceSaga.evalEditor session ws loc blocker ctxAfter
        (WorkspaceSaga.EvalResult.finished v) =
      [WorkspaceSaga.Effect.putBeginInterruptExecution loc,
       WorkspaceSaga.Effect.putBeginClearContext loc,
       WorkspaceSaga.Effect.putClearReplOutput loc,
       WorkspaceSaga.Effect.callRunInContext ws.editorPrepend true,
       WorkspaceSaga.Effect.callRunInContext blocker true,
       WorkspaceSaga.Effect.callRunInContext ws.editorValue false,
       WorkspaceSaga.Effect.putEvalInterpreterSuccess v loc] ∧
    (∀ u l,
        WorkspaceSaga.Effect.putEvalInterpreterSuccess u l ∈
            WorkspaceSaga.evalEditor session ws loc blocker ctxAfter
              (WorkspaceSaga.EvalResult.finished v) →
          u = v ∧ l = loc) ∧
    (∀ b,
        WorkspaceSaga.Effect.callRunInContext ws.editorPostpend b ∉
          WorkspaceSaga.evalEditor session ws loc blocker ctxAfter
            (WorkspaceSaga.EvalResult.finished v)) := by
  refine ⟨rfl, fun u l hmem => ?_, fun b hmem => ?_⟩
  · simp [WorkspaceSaga.evalEditor, WorkspaceSaga.handleResult] at hmem
    exact hmem
  · simp [WorkspaceSaga.evalEditor, WorkspaceSaga.handleResult] at hmem
    rcases hmem with ⟨h, _⟩ | ⟨h, _⟩ | ⟨h, _⟩ <;>
      [exact hpre h; exact hblk h; exact hval h]

/-- Claim C6 witness: the sequence at a concrete workspace state. -/
theorem WorkspaceSaga.evalEditor_sequence_witness :
    ("42;" : String) ≠ "const foo = (x) => -1;" ∧
      ("42;" : String) ≠ "const builtins = [];" ∧
      ("42;" : String) ≠ "foo(2);" ∧
      WorkspaceSaga.evalEditor ⟨10, false, true, false⟩
          (WorkspaceSaga.WorkspaceState.mk "const foo = (x) => -1;" "foo(2);"
            "42;") "playground" "const builtins = [];" ⟨[], none⟩
          (WorkspaceSaga.EvalResult.finished (WorkspaceSaga.Value.num (-1))) =
        [WorkspaceSaga.Effect.putBeginInterruptExecution "playground",
         WorkspaceSaga.Effect.putBeginClearContext "playground",
         WorkspaceSaga.Effect.putClearReplOutput "playground",
         WorkspaceSaga.Effect.callRunInContext "const foo = (x) => -1;" true,
         WorkspaceSaga.Effect.callRunInContext "const builtins = [];" true,
         WorkspaceSaga.Effect.callRunInContext "foo(2);" false,
         WorkspaceSaga.Effect.putEvalInterpreterSuccess
           (WorkspaceSaga.Value.num (-1)) "playground"] :=
  ⟨by decide, by decide, by decide,
    (WorkspaceSaga.evalEditor_sequence ⟨10, false, true, false⟩
          (WorkspaceSaga.WorkspaceState.mk "const foo = (x) => -1;" "foo(2);"
            "42;") "playground" "const builtins = [];" ⟨[], none⟩
          (WorkspaceSaga.Value.num (-1)) (by decide) (by decide)
          (by decide)).1⟩

namespace WorkspaceSaga

lemma mem_runTestCases (loc : WorkspaceLocation) (res : Nat → Bool) :
    ∀ (n i j : Nat),
      Effect.callRunTestCase loc j ∈ runTestCases loc res n i ↔
        (i ≤ j ∧ j < i + n ∧ ∀ k, i ≤ k → k < j → res k = true) := by
  intro n
  induction n with
  | zero =>
    intro i j
    simp only [runTestCases, List.not_mem_nil, false_iff]
    rintro ⟨h1, h2, _⟩
    omega
  | succ n ih =>
    intro i j
    rw [runTestCases]
    by_cases hres : res i = true
    · rw [if_pos hres, List.mem_cons, ih (i + 1) j]
      constructor
      · rintro (heq | ⟨h1, h2, h3⟩)
        · have hj : j = i := by
            simpa using heq
          subst hj
          exact ⟨le_refl j, by omega, fun k hk1 hk2 => by omega⟩
        · refine ⟨by omega, by omega, fun k hk1 hk2 => ?_⟩
          by_cases hki : k = i
          · exact hki ▸ hres
          · exact h3 k (by omega) hk2
      · rintro ⟨h1, h2, h3⟩
        by_cases hji : j = i
        · exact Or.inl (by rw [hji])
        · exact Or.inr ⟨by omega, by omega, fun k hk1 hk2 => h3 k (by omega) hk2⟩
    · rw [if_neg hres, List.mem_cons]
      constructor
      · rintro (heq | hmem)
        · have hj : j = i := by
            simpa using heq
          subst hj
          exact ⟨le_refl j, by omega, fun k hk1 hk2 => by omega⟩
        · simp at hmem
      · rintro ⟨h1, h2, h3⟩
        by_cases hji : j = i
        · exact Or.inl (by rw [hji])
        · exact absurd (h3 i (le_refl i) (by omega)) hres

lemma runTestCases_eq_map_range (loc : WorkspaceLocation) (res : Nat → Bool) :
    ∀ (n i : Nat), ∃ m, m ≤ n ∧
      runTestCases loc res n i =
        (List.range' i m).map (Effect.callRunTestCase loc) := by
  intro n
  induction n with
  | zero => exact fun i => ⟨0, le_refl 0, rfl⟩
  | succ n ih =>
    intro i
    rw [runTestCases]
    by_cases hres : res i = true
    · obtain ⟨m, hm, hEq⟩ := ih (i + 1)
      refine ⟨m + 1, by omega, ?_⟩
      rw [if_pos hres, hEq, List.range'_succ, List.map_cons]
    · refine ⟨1, by omega, ?_⟩
      rw [if_neg hres]
      rfl

end WorkspaceSaga

/-- Claim C10: the `EVAL_EDITOR_AND_TESTCASES` handler evaluates the editor
first and then runs the testcases strictly in index order, terminating
prematurely at the first testcase whose `runTestCase` call returns false —
a testcase index is run exactly when it is in range and all lower-indexed
calls returned true; with an empty testcase list the editor is still
evaluated but no testcase is run and no success message is shown. -/
theorem WorkspaceSaga.evalEditorAndTestcases_order
    (loc : WorkspaceSaga.WorkspaceLocation) (res : Nat → Bool) :
    (∀ n,
        (WorkspaceSaga.evalEditorAndTestcases loc n res).head? =
          some (WorkspaceSaga.Effect.callEvalEditor loc)) ∧
    (WorkspaceSaga.evalEditorAndTestcases loc 0 res =
      [WorkspaceSaga.Effect.callEvalEditor loc]) ∧
    (∀ n, n ≠ 0 → ∃ m, m ≤ n ∧
        WorkspaceSaga.evalEditorAndTestcases loc n res =
          WorkspaceSaga.Effect.callEvalEditor loc ::
            WorkspaceSaga.Effect.callShowSuccessMessage
                "Running all testcases!" 2000 ::
              (List.range' 0 m).map (WorkspaceSaga.Effect.callRunTestCase loc)) ∧
    (∀ n j,
        WorkspaceSaga.Effect.callRunTestCase loc j ∈
            WorkspaceSaga.evalEditorAndTestcases loc n res ↔
          (j < n ∧ ∀ k, k < j → res k = true)) := by
  refine ⟨fun n => rfl, rfl, fun n hn => ?_, fun n j => ?_⟩
  · obtain ⟨m, hm, hEq⟩ :=
      WorkspaceSaga.runTestCases_eq_map_range loc res n 0
    exact ⟨m, hm, by
      simp only [WorkspaceSaga.evalEditorAndTestcases, if_neg hn, hEq]⟩
  · cases n with
    | zero => simp [WorkspaceSaga.evalEditorAndTestcases]
    | succ n =>
      have h := WorkspaceSaga.mem_runTestCases loc res (n + 1) 0 j
      simp only [WorkspaceSaga.evalEditorAndTestcases]
      rw [if_neg (Nat.succ_ne_zero n)]
      simp only [List.mem_cons]
      constructor
      · rintro (heq | heq | hmem)
        · exact absurd heq (by simp)
        · exact absurd heq (by simp)
        · obtain ⟨h1, h2, h3⟩ := h.mp hmem
          exact ⟨by omega, fun k hk => h3 k (by omega) hk⟩
      · rintro ⟨h1, h2⟩
        exact Or.inr (Or.inr (h.mpr ⟨by omega, by omega,
          fun k hk1 hk2 => h2 k hk2⟩))

/-- Claim C10 witness: with two testcases both succeeding, both are run in
order after the editor evaluation. -/
theorem WorkspaceSaga.evalEditorAndTestcases_order_witness :
    (2 : Nat) ≠ 0 ∧ ∃ m, m ≤ 2 ∧
      WorkspaceSaga.evalEditorAndTestcases "assessment" 2 (fun _ => true) =
        WorkspaceSaga.Effect.callEvalEditor "assessment" ::
          WorkspaceSaga.Effect.callShowSuccessMessage
              "Running all testcases!" 2000 ::
            (List.range' 0 m).map
              (WorkspaceSaga.Effect.callRunTestCase "assessment") :=
  ⟨by decide,
    (WorkspaceSaga.evalEditorAndTestcases_order "assessment"
          (fun _ => true)).2.2.1 2 (by decide)⟩
